import Mathlib

/-!
Shallow embedding of the scan-and-detect pipeline of the bugbounty-swarm
repository: scope gating (src/core/scope.py), request budgeting
(src/core/rate_limit.py), baseline diffing (src/core/http_utils.py),
triage (src/agents/triage_agent.py), playbook routing
(src/core/tech_router.py), focus mode (src/core/focus.py) and the SSRF
probe loop (src/agents/vuln_scanners/ssrf_scanner.py). Python floats
(clock readings, confidence scores) are modelled as exact rationals,
Python lists as List, Python dict rows as structures, fallible calls by
Option/Except inputs and results. Python string primitives (strip, lower,
upper, substring test) are re-implemented structurally on character
lists; lower/upper act on ASCII letters, which covers every string the
pipeline compares.
-/

/-- Python substring test (the needle is an infix of the haystack) on
character lists. -/
def listHasSub (pat : List Char) : List Char → Bool
  | [] => pat.isEmpty
  | c :: rest => pat.isPrefixOf (c :: rest) || listHasSub pat rest

/-- Python substring test `pat in hay` for strings. -/
def strContains (hay pat : String) : Bool := listHasSub pat.toList hay.toList

/-- Python `s.strip()`: drop leading and trailing whitespace. -/
def strTrim (s : String) : String :=
  String.mk (((s.toList.dropWhile Char.isWhitespace).reverse.dropWhile
    Char.isWhitespace).reverse)

/-- Python `s.lower()` (ASCII letters). -/
def strLower (s : String) : String := String.mk (s.toList.map Char.toLower)

/-- Python `s.upper()` (ASCII letters). -/
def strUpper (s : String) : String := String.mk (s.toList.map Char.toUpper)

/-- Python `s.rstrip(".")`: drop every trailing dot. -/
def rstripDot (s : String) : String :=
  String.mk ((s.toList.reverse.dropWhile (fun c => c == '.')).reverse)

/-- Python `hay.endswith(pat)`. -/
def strEndsWith (hay pat : String) : Bool := pat.toList.isSuffixOf hay.toList

/-- The remainder of the haystack after the first occurrence of the
needle, `none` when the needle does not occur. -/
def afterFirstSub (pat : List Char) : List Char → Option (List Char)
  | [] => if pat.isEmpty then some [] else none
  | c :: rest =>
    if pat.isPrefixOf (c :: rest) then some ((c :: rest).drop pat.length)
    else afterFirstSub pat rest

/-- Remainders of a character list after consuming one, two or three leading
ASCII digits: the possible matches of the regex piece `[0-9]{1,3}`. -/
def digitsRem : List Char → List (List Char)
  | [] => []
  | c :: r =>
    if c.isDigit then
      r :: (match r with
        | [] => []
        | c2 :: r2 =>
          if c2.isDigit then
            r2 :: (match r2 with
              | [] => []
              | c3 :: r3 => if c3.isDigit then [r3] else [])
          else [])
    else []

/-- Remainders after one match of the regex piece `\\.[0-9]{1,3}` as it
stands in the source: inside the raw string, `\\` matches one literal
backslash character and `.` any character other than a newline. -/
def groupRem : List Char → List (List Char)
  | '\\' :: c :: r => if c == '\n' then [] else digitsRem r
  | _ => []

/-- Models `_is_ip` (src/core/scope.py:22-23): truthiness of
`re.fullmatch(r"[0-9]{1,3}(?:\\.[0-9]{1,3}){3}", host)`, i.e. existence of
a full match of the pattern against the whole host. -/
def is_ip (host : String) : Bool :=
  (digitsRem host.toList).any fun r1 =>
    (groupRem r1).any fun r2 =>
      (groupRem r2).any fun r3 =>
        (groupRem r3).any fun r4 => r4.isEmpty

/-- Models `urllib.parse.urlparse(target).hostname or ""` for a target
containing "://": the text after the first "://" up to the first of
`/ ? #`, with userinfo (everything up to the last `@`) dropped, an IPv6
bracket pair unwrapped, any port suffix after `:` cut, lowercased.
Assumes a well-formed scheme stands before the "://". -/
def hostOfUrl (target : String) : String :=
  match afterFirstSub "://".toList target.toList with
  | none => ""
  | some afterScheme =>
    let netloc := afterScheme.takeWhile fun c =>
      !(c == '/' || c == '?' || c == '#')
    let hostPort := (netloc.reverse.takeWhile (fun c => c != '@')).reverse
    let host :=
      match hostPort with
      | '[' :: r => r.takeWhile fun c => c != ']'
      | _ => hostPort.takeWhile fun c => c != ':'
    strLower (String.mk host)

/-- Models `_normalize_host` (src/core/scope.py:13-19). -/
def normalize_host (target : String) : String :=
  let host := if strContains target "://" then hostOfUrl target else target
  rstripDot (strLower (strTrim host))

/-- Scope configuration (src/core/scope.py:26-30). -/
structure ScopeConfig where
  domains : List String
  ips : List String
  notes : String
deriving DecidableEq

/-- The content of a readable, well-formed scope file as `json.load`
returns it. -/
structure RawScope where
  domains : List String
  ips : List String
  notes : String

/-- Models `ScopeConfig.load` (src/core/scope.py:31-46): `none` stands for
a missing, unreadable or unparsable file (the `except` branches), which
the source replaces by the default of empty domain and IP lists. -/
def ScopeConfig.load (data : Option RawScope) : ScopeConfig :=
  let d := data.getD ⟨[], [], ""⟩
  { domains := d.domains.map fun s => rstripDot (strLower s)
    ips := d.ips
    notes := d.notes }

/-- Models `ScopeConfig.in_scope` (src/core/scope.py:48-57). -/
def ScopeConfig.in_scope (cfg : ScopeConfig) (target : String) : Bool :=
  let host := normalize_host target
  if host == "" then false
  else if is_ip host then cfg.ips.contains host
  else cfg.domains.any fun d => host == d || strEndsWith host ("." ++ d)

/-- Models `require_in_scope` (src/core/scope.py:60-64): raising
`ValueError` is an `error` result. -/
def require_in_scope (scope : ScopeConfig) (target : String) : Except String Unit :=
  if scope.in_scope target then Except.ok ()
  else Except.error "Target is out of scope. Update configs/scope.json before running."

/-- Configuration of a `RequestBudget` (src/core/rate_limit.py:10-14). -/
structure RequestBudget where
  max_requests : ℤ
  window_seconds : ℚ

/-- The mutable state of a `RequestBudget`: `_window_start` and `_count`. -/
structure BudgetState where
  window_start : ℚ
  count : ℤ
deriving DecidableEq

/-- Models `RequestBudget.allow` (src/core/rate_limit.py:21-29); `now` is
the clock reading `time.time()` of this call (the re-read inside `_reset`
is identified with it). Returns the grant decision and the new state. -/
def RequestBudget.allow (b : RequestBudget) (s : BudgetState) (now : ℚ) (n : ℤ) :
    Bool × BudgetState :=
  let s2 := if b.window_seconds ≤ now - s.window_start then ⟨now, 0⟩ else s
  if b.max_requests < s2.count + n then (false, s2)
  else (true, ⟨s2.window_start, s2.count + n⟩)

/-- Models the retry loop of `wait_for_budget` (src/core/rate_limit.py:31-33)
driven by the list of clock readings at which `allow` gets called: `true`
exactly when some call grants (the Python loop returns), with the state
the calls leave behind. -/
def pollRun (b : RequestBudget) (n : ℤ) : BudgetState → List ℚ → Bool × BudgetState
  | s, [] => (false, s)
  | s, t :: ts =>
    match b.allow s t n with
    | (true, s2) => (true, s2)
    | (false, s2) => pollRun b n s2 ts

/-- A sequence of `allow` calls, each a pair (clock reading, units asked):
the list of grant decisions and the final state. -/
def allowSeq (b : RequestBudget) : BudgetState → List (ℚ × ℤ) → List Bool × BudgetState
  | s, [] => ([], s)
  | s, (t, n) :: rest =>
    match b.allow s t n with
    | (g, s2) =>
      match allowSeq b s2 rest with
      | (gs, sEnd) => (g :: gs, sEnd)

/-- A captured HTTP response: status code and body text. -/
structure ProbeResult where
  status_code : ℤ
  text : String
deriving DecidableEq

/-- Truthiness of a `requests.Response`: `bool(resp)` is `resp.ok`, which
is false exactly when `raise_for_status` would raise, i.e. for a 4xx or
5xx status code. -/
def respOk (r : ProbeResult) : Bool :=
  if 400 ≤ r.status_code ∧ r.status_code < 600 then false else true

/-- Models `response_differs` (src/core/http_utils.py:6-14). `baseline` is
`none` when no baseline response exists; the source line `if not baseline`
is also entered for a falsy (4xx/5xx) baseline response object. -/
def response_differs : Option ProbeResult → ProbeResult → ℤ → Bool
  | none, _, _ => true
  | some b, resp, min_delta =>
    if respOk b = false then true
    else if b.status_code ≠ resp.status_code then true
    else if min_delta < (((b.text.length : ℤ) - (resp.text.length : ℤ)).natAbs : ℤ) then true
    else false

/-- Modelled from the claim and spec wording: a candidate is significant
exactly when the status codes differ or the body lengths differ by more
than `min_delta` bytes. -/
def claimSignificant (b resp : ProbeResult) (min_delta : ℤ) : Bool :=
  if b.status_code ≠ resp.status_code then true
  else if min_delta < (((b.text.length : ℤ) - (resp.text.length : ℤ)).natAbs : ℤ) then true
  else false

/-- One raw finding dict as the triage agent reads it: the five
fingerprint fields (an absent key reads as ""), the scoring fields, and
the `confidence` slot the triage writes. -/
structure TriageFinding where
  type : String
  url : String
  parameter : String
  payload : String
  issue : String
  severity : String
  indicators : List String
  details : List String
  confidence : Option ℚ
deriving DecidableEq

/-- Models `_fingerprint` (src/agents/triage_agent.py:8-17), with the
SHA-256 hex digest represented by its preimage, the joined key
(SHA-256 is treated as collision-free). -/
def fingerprint (f : TriageFinding) : String :=
  String.intercalate "|" [f.type, f.url, f.parameter, f.payload, f.issue]

/-- Models `_score` (src/agents/triage_agent.py:34-45), floats as exact
rationals. -/
def score (f : TriageFinding) : ℚ :=
  let severity := strUpper (if f.severity == "" then "MEDIUM" else f.severity)
  let base : ℚ :=
    if severity == "CRITICAL" then 9/10
    else if severity == "HIGH" then 3/4
    else if severity == "MEDIUM" then 1/2
    else if severity == "LOW" then 3/10
    else 2/5
  let indicators := if f.indicators.isEmpty then f.details else f.indicators
  let base2 := if indicators.isEmpty then base else base + 1/10
  min base2 (99/100)

/-- The dict copy plus `f["confidence"] = _score(f)` done per retained
finding (src/agents/triage_agent.py:27-29). -/
def withConfidence (f : TriageFinding) : TriageFinding :=
  { f with confidence := some (score f) }

/-- Models `triage_findings` (src/agents/triage_agent.py:20-31): the
`seen` set is carried as the list of fingerprints met so far. -/
def triage_findings (findings : List TriageFinding) : List TriageFinding :=
  (findings.foldl
    (fun st f =>
      let fp := fingerprint f
      if st.1.contains fp then st
      else (fp :: st.1, st.2 ++ [withConfidence f]))
    (([] : List String), ([] : List TriageFinding))).2

/-- Modelled from the claim wording: retain the first occurrence per
fingerprint, in input order. -/
def keepFirstByFingerprint (findings : List TriageFinding) : List TriageFinding :=
  findings.foldl
    (fun acc f =>
      if acc.any (fun g => fingerprint g == fingerprint f) then acc else acc ++ [f])
    []

/-- Models `TECH_TO_PLAYBOOKS` (src/core/tech_router.py:6-16), insertion
order preserved. -/
def TECH_TO_PLAYBOOKS : List (String × List String) :=
  [("next.js", ["auth", "ssrf", "idor", "xss"]),
   ("react", ["xss", "auth"]),
   ("angular", ["xss", "auth"]),
   ("vue", ["xss", "auth"]),
   ("django", ["sqli", "auth", "idor"]),
   ("flask", ["sqli", "auth", "idor"]),
   ("express", ["auth", "ssrf", "idor"]),
   ("laravel", ["sqli", "auth", "idor"]),
   ("wordpress", ["auth", "idor", "xss"])]

/-- Models `route_playbooks` (src/core/tech_router.py:19-30). -/
def route_playbooks (tech_list : List String) : List String :=
  let selected := tech_list.foldl
    (fun sel t =>
      TECH_TO_PLAYBOOKS.foldl
        (fun sel2 kv =>
          if strContains (strLower t) kv.1 then
            kv.2.foldl (fun s pb => if s.contains pb then s else s ++ [pb]) sel2
          else sel2)
        sel)
    []
  if selected.isEmpty then ["xss", "sqli", "auth", "idor"] else selected

/-- The focus configuration dict after `load_focus` merged the defaults
(src/core/focus.py:14-30). `rotate_start` holds the outcome of parsing
the configured timestamp string: `some s` for a successfully parsed
timezone-aware timestamp at `s` epoch seconds, `none` for an empty or
unparsable one. -/
structure FocusConfig where
  enabled : Bool
  target : String
  days : ℤ
  mode : String
  rotate_targets : List String
  rotate_start : Option ℚ

/-- The comprehension over `rotate_targets` in `resolve_focus_target`:
keep the entries with non-blank strip, stripped and lowercased. -/
def normalizedRotateTargets (f : FocusConfig) : List String :=
  (f.rotate_targets.filter fun t => !(strTrim t == "")).map fun t => strLower (strTrim t)

/-- Python `int(focus.get("days") or 56)`: a falsy (zero) days value
becomes 56. -/
def effectiveDays (f : FocusConfig) : ℤ := if f.days = 0 then 56 else f.days

/-- Models `resolve_focus_target` (src/core/focus.py:43-63). `now` is the
current clock in epoch seconds and `(now - start_dt).days` is
`⌊(now - s) / 86400⌋`. Every quantity the source feeds to `//` and `%` is
nonnegative there (the divisor through `max(days, 1)`), so Python and Nat
division and remainder agree. -/
def resolve_focus_target (f : FocusConfig) (now : ℚ) : String :=
  if f.enabled = false then ""
  else
    let mode := strLower (strTrim (if f.mode == "" then "single" else f.mode))
    if mode == "rotate" then
      let targets := normalizedRotateTargets f
      if targets.isEmpty then strLower (strTrim f.target)
      else
        let days := effectiveDays f
        match f.rotate_start with
        | none => targets.headD ""
        | some s =>
          let deltaDays : ℤ := max 0 ⌊(now - s) / 86400⌋
          let idx : ℕ := deltaDays.toNat / (max days 1).toNat % targets.length
          targets.getD idx ""
    else strLower (strTrim f.target)

/-- Models `require_focus_target` (src/core/focus.py:33-40): raising
`ValueError` is an `error` result. -/
def require_focus_target (f : FocusConfig) (now : ℚ) (target : String) :
    Except String Unit :=
  if f.enabled = false then Except.ok ()
  else
    let ft := resolve_focus_target f now
    if ft == "" then Except.error "Focus mode enabled but no target set in configs/focus.yaml"
    else if strLower (strTrim target) ≠ ft then
      Except.error ("Focus mode enabled. Only target " ++ ft ++ " is allowed.")
    else Except.ok ()

/-- Modelled from the claim wording for the rotate branch: the resolved
target is `targets[floor(days_elapsed / period) mod len(targets)]` with
`period` the configured days value and `days_elapsed` the whole days
since `rotate_start` clamped at 0 (Python floor division `Int.fdiv` and
Python `%`, which equals `Int.emod` for the positive modulus
`len(targets)`). -/
def claimFocusTarget (f : FocusConfig) (now : ℚ) : String :=
  let targets := normalizedRotateTargets f
  match f.rotate_start with
  | none => ""
  | some s =>
    let deltaDays : ℤ := max 0 ⌊(now - s) / 86400⌋
    targets.getD (Int.toNat (Int.fdiv deltaDays f.days % (targets.length : ℤ))) ""

/-- The SSRF evidence indicators computed from a response
(src/agents/vuln_scanners/ssrf_scanner.py:80-93), in source order. -/
def ssrfIndicators (r : ProbeResult) : List String :=
  (if strContains (strLower r.text) "localhost" || strContains r.text "127.0.0.1" then
    ["localhost_reference"] else []) ++
  (if strContains r.text "ami-id" || strContains r.text "instance-id" then
    ["aws_metadata"] else []) ++
  (if strContains (strLower r.text) "connection refused" then
    ["connection_refused"] else [])

/-- Models `SSRFScanner._differs` (ssrf_scanner.py:139-147), textually the
same comparator as `response_differs` with its default `min_delta = 50`. -/
def ssrf_differs (baseline : Option ProbeResult) (resp : ProbeResult) : Bool :=
  response_differs baseline resp 50

/-- A finding dict built by the SSRF probe. The pattern branch and the
timeout branch build dicts with different key sets ("indicators" vs
"indicator") and severities, so the two shapes are never equal as dicts;
`ts` stands for the `datetime.utcnow().isoformat()` timestamp. -/
inductive SSRFFinding where
  | patternHit (url param payload : String) (indicators : List String) (ts : ℕ)
  | timeoutHit (url param payload : String) (ts : ℕ)
deriving DecidableEq

/-- The outcome of one payload iteration of `test_ssrf_param`: a response
arrived, the request timed out, or another exception was raised. -/
inductive ProbeEvent where
  | ok (payload : String) (ts : ℕ) (r : ProbeResult)
  | timeout (payload : String) (ts : ℕ)
  | otherError
deriving DecidableEq

/-- One iteration of the payload loop of `test_ssrf_param`
(ssrf_scanner.py:72-130). The carried state is (self.findings, the local
variable `finding`: `none` while unassigned). In the response branch the
source builds `finding` only under the guard on indicators and `_differs`
but runs `if finding not in self.findings: append` unconditionally on the
next line; with `finding` still unassigned that line raises NameError,
which `except Exception: pass` swallows. -/
def ssrfStep (url param : String) (baseline : Option ProbeResult)
    (st : List SSRFFinding × Option SSRFFinding) (ev : ProbeEvent) :
    List SSRFFinding × Option SSRFFinding :=
  match ev with
  | .ok payload ts r =>
    let inds := ssrfIndicators r
    if !inds.isEmpty && ssrf_differs baseline r then
      let f := SSRFFinding.patternHit url param payload inds ts
      if st.1.contains f then (st.1, some f) else (st.1 ++ [f], some f)
    else
      match st.2 with
      | none => (st.1, none)
      | some f => if st.1.contains f then (st.1, some f) else (st.1 ++ [f], some f)
  | .timeout payload ts =>
    let f := SSRFFinding.timeoutHit url param payload ts
    if st.1.contains f then (st.1, some f) else (st.1 ++ [f], some f)
  | .otherError => st

/-- The same loop with construction and append made atomic: a pattern
finding is appended exactly when the response is significant AND some
indicator matched. -/
def ssrfStepClean (url param : String) (baseline : Option ProbeResult)
    (fs : List SSRFFinding) (ev : ProbeEvent) : List SSRFFinding :=
  match ev with
  | .ok payload ts r =>
    let inds := ssrfIndicators r
    if !inds.isEmpty && ssrf_differs baseline r then
      let f := SSRFFinding.patternHit url param payload inds ts
      if fs.contains f then fs else fs ++ [f]
    else fs
  | .timeout payload ts =>
    let f := SSRFFinding.timeoutHit url param payload ts
    if fs.contains f then fs else fs ++ [f]
  | .otherError => fs

/-- The payload loop of `test_ssrf_param` as the source runs it: iterate
`ssrfStep` over the iteration outcomes, starting from the prior
`self.findings` and an unassigned local `finding`. -/
def ssrfRun (url param : String) (baseline : Option ProbeResult) :
    List SSRFFinding × Option SSRFFinding → List ProbeEvent →
    List SSRFFinding × Option SSRFFinding
  | st, [] => st
  | st, ev :: evs => ssrfRun url param baseline (ssrfStep url param baseline st ev) evs

/-- The payload loop with the atomic (clean) step. -/
def ssrfCleanRun (url param : String) (baseline : Option ProbeResult) :
    List SSRFFinding → List ProbeEvent → List SSRFFinding
  | fs, [] => fs
  | fs, ev :: evs => ssrfCleanRun url param baseline (ssrfStepClean url param baseline fs ev) evs

/-- The finding an iteration outcome is allowed to contribute: in the
response branch exactly the pattern finding of that response, and only
when an indicator matched and the response differs from baseline; in the
timeout branch the timeout finding; never for another exception. -/
def ssrfEmits (url param : String) (baseline : Option ProbeResult)
    (ev : ProbeEvent) (f : SSRFFinding) : Prop :=
  match ev with
  | .ok payload ts r =>
    f = SSRFFinding.patternHit url param payload (ssrfIndicators r) ts ∧
    ssrfIndicators r ≠ [] ∧ ssrf_differs baseline r = true
  | .timeout payload ts => f = SSRFFinding.timeoutHit url param payload ts
  | .otherError => False

/-- C1: evaluation of the scope gate at the failing input. `_is_ip` never
recognizes a dotted-quad host, because inside the raw string of its
pattern `\\.` matches a literal backslash followed by any character, so a
host equal to an allow-listed IP is rejected (the IP branch is dead for
real IPv4 hosts, while a backslash-ridden host would match); the claim's
domain-suffix examples do hold. -/
theorem scope_ip_branch_dead :
    is_ip "127.0.0.1" = false ∧
    is_ip "1\\.2\\.3\\.4" = true ∧
    ScopeConfig.in_scope ⟨[], ["127.0.0.1"], ""⟩ "127.0.0.1" = false ∧
    ScopeConfig.in_scope ⟨["example.com"], [], ""⟩ "sub.example.com" = true ∧
    ScopeConfig.in_scope ⟨["example.com"], [], ""⟩ "evil.com" = false := by
  decide

/-- C10: a missing, unreadable or unparsable scope file loads as the
default scope with empty domain and IP lists, and that scope rejects
every target: `in_scope` is false and `require_in_scope` raises. -/
theorem scope_load_fail_closed :
    (ScopeConfig.load none).domains = [] ∧ (ScopeConfig.load none).ips = [] ∧
    ∀ target : String,
      ScopeConfig.in_scope (ScopeConfig.load none) target = false ∧
      require_in_scope (ScopeConfig.load none) target =
        Except.error "Target is out of scope. Update configs/scope.json before running." := by
  refine ⟨rfl, rfl, fun target => ?_⟩
  have h : ScopeConfig.in_scope (ScopeConfig.load none) target = false := by
    simp [ScopeConfig.in_scope, ScopeConfig.load]
  refine ⟨h, ?_⟩
  unfold require_in_scope
  rw [h]
  rfl

/-- C5 counterexample: a falsy (status 404) baseline response with the
identical candidate is judged significant by the code although the status
codes match and the length difference is 0, against the claim's
characterization of significance. -/
theorem response_differs_falsy_baseline_cex :
    response_differs (some ⟨404, "same body"⟩) ⟨404, "same body"⟩ 50 = true ∧
    claimSignificant ⟨404, "same body"⟩ ⟨404, "same body"⟩ 50 = false := by
  decide

/-- C5 (amended): with a truthy (status outside 4xx/5xx) baseline
response the comparator is exactly the claim's status-or-length test; an
absent baseline, or a falsy baseline response object, makes every
candidate significant. -/
theorem response_differs_characterization (b resp : ProbeResult)
    (hb : respOk b = true) :
    response_differs (some b) resp 50 = claimSignificant b resp 50 ∧
    (∀ r : ProbeResult, response_differs none r 50 = true) ∧
    (∀ b2 r : ProbeResult, respOk b2 = false → response_differs (some b2) r 50 = true) := by
  refine ⟨?_, fun r => rfl, fun b2 r h2 => ?_⟩
  · simp only [response_differs, claimSignificant, hb]
    simp
  · simp only [response_differs, h2]
    simp

/-- C5 witness: the characterization applied to a truthy concrete
baseline. -/
theorem response_differs_characterization_witness :
    response_differs (some ⟨200, "aaaa"⟩) ⟨200, "b"⟩ 50
      = claimSignificant ⟨200, "aaaa"⟩ ⟨200, "b"⟩ 50 :=
  (response_differs_characterization ⟨200, "aaaa"⟩ ⟨200, "b"⟩ (by decide)).1

/-- C8 counterexample: with no recognized technology the router returns
the four families xss, sqli, auth, idor; the full five-family set of the
claim would also contain ssrf, which is absent. -/
theorem route_playbooks_default_cex :
    route_playbooks ["fortran"] = ["xss", "sqli", "auth", "idor"] ∧
    ¬ ("ssrf" ∈ route_playbooks ["fortran"]) := by
  decide

/-- C8 (amended): when no detected-technology label contains any key of
the static table as a case-insensitive substring, the router returns the
default family set xss, sqli, auth, idor — four of the five probe
families, without ssrf. -/
theorem route_playbooks_default (techs : List String)
    (h : ∀ t ∈ techs, ∀ kv ∈ TECH_TO_PLAYBOOKS, strContains (strLower t) kv.1 = false) :
    route_playbooks techs = ["xss", "sqli", "auth", "idor"] := by
  have aux : ∀ (t : String) (l : List (String × List String)),
      (∀ kv ∈ l, strContains (strLower t) kv.1 = false) →
      ∀ sel : List String,
        l.foldl (fun sel2 kv =>
          if strContains (strLower t) kv.1 then
            kv.2.foldl (fun s pb => if s.contains pb then s else s ++ [pb]) sel2
          else sel2) sel = sel := by
    intro t l
    induction l with
    | nil => intro _ sel; rfl
    | cons kv rest ih =>
      intro hl sel
      rw [List.foldl_cons]
      have hc : strContains (strLower t) kv.1 = false := hl kv (List.mem_cons_self kv rest)
      rw [hc]
      exact ih (fun kv2 h2 => hl kv2 (List.mem_cons_of_mem kv h2)) sel
  have houter : ∀ (l : List String),
      (∀ t ∈ l, ∀ kv ∈ TECH_TO_PLAYBOOKS, strContains (strLower t) kv.1 = false) →
      ∀ sel : List String,
        l.foldl (fun sel t =>
          TECH_TO_PLAYBOOKS.foldl (fun sel2 kv =>
            if strContains (strLower t) kv.1 then
              kv.2.foldl (fun s pb => if s.contains pb then s else s ++ [pb]) sel2
            else sel2) sel) sel = sel := by
    intro l
    induction l with
    | nil => intro _ sel; rfl
    | cons t rest ih =>
      intro hl sel
      rw [List.foldl_cons, aux t TECH_TO_PLAYBOOKS (hl t (List.mem_cons_self t rest)) sel]
      exact ih (fun t2 h2 => hl t2 (List.mem_cons_of_mem t h2)) sel
  unfold route_playbooks
  rw [houter techs h []]
  rfl

/-- C8 witness: the default at a concrete unrecognized technology list. -/
theorem route_playbooks_default_witness :
    route_playbooks ["fortran", "cobol"] = ["xss", "sqli", "auth", "idor"] :=
  route_playbooks_default ["fortran", "cobol"] (by decide)

/-- C4: every triage confidence lies between 0.30 and 0.99, and the score
realizes the claim's table — severity base (CRITICAL 0.90, HIGH 0.75,
MEDIUM 0.50, LOW 0.30, other 0.40, case-insensitively, absent read as
MEDIUM), plus 0.10 for a non-empty indicator or detail list, capped at
0.99. -/
theorem triage_confidence_bounds :
    (∀ f : TriageFinding, 3/10 ≤ score f ∧ score f ≤ 99/100) ∧
    score ⟨"", "", "", "", "", "CRITICAL", [], [], none⟩ = 9/10 ∧
    score ⟨"", "", "", "", "", "HIGH", [], [], none⟩ = 3/4 ∧
    score ⟨"", "", "", "", "", "MEDIUM", [], [], none⟩ = 1/2 ∧
    score ⟨"", "", "", "", "", "LOW", [], [], none⟩ = 3/10 ∧
    score ⟨"", "", "", "", "", "INFO", [], [], none⟩ = 2/5 ∧
    score ⟨"", "", "", "", "", "", [], [], none⟩ = 1/2 ∧
    score ⟨"", "", "", "", "", "CRITICAL", ["i"], [], none⟩ = 99/100 ∧
    score ⟨"", "", "", "", "", "high", [], ["d"], none⟩ = 17/20 ∧
    score ⟨"", "", "", "", "", "low", ["i"], [], none⟩ = 2/5 := by
  refine ⟨fun f => ?_, ?_, ?_, ?_, ?_, ?_, ?_, ?_, ?_, ?_⟩
  · have h : ∀ b2 : ℚ, 3/10 ≤ b2 → 3/10 ≤ min b2 (99/100) ∧ min b2 (99/100) ≤ 99/100 :=
      fun b2 hb => ⟨le_min hb (by norm_num), min_le_right _ _⟩
    unfold score
    apply h
    split_ifs <;> norm_num
  · have e : score ⟨"", "", "", "", "", "CRITICAL", [], [], none⟩
        = min (9/10 : ℚ) (99/100) := rfl
    rw [e]; norm_num [min_def]
  · have e : score ⟨"", "", "", "", "", "HIGH", [], [], none⟩
        = min (3/4 : ℚ) (99/100) := rfl
    rw [e]; norm_num [min_def]
  · have e : score ⟨"", "", "", "", "", "MEDIUM", [], [], none⟩
        = min (1/2 : ℚ) (99/100) := rfl
    rw [e]; norm_num [min_def]
  · have e : score ⟨"", "", "", "", "", "LOW", [], [], none⟩
        = min (3/10 : ℚ) (99/100) := rfl
    rw [e]; norm_num [min_def]
  · have e : score ⟨"", "", "", "", "", "INFO", [], [], none⟩
        = min (2/5 : ℚ) (99/100) := rfl
    rw [e]; norm_num [min_def]
  · have e : score ⟨"", "", "", "", "", "", [], [], none⟩
        = min (1/2 : ℚ) (99/100) := rfl
    rw [e]; norm_num [min_def]
  · have e : score ⟨"", "", "", "", "", "CRITICAL", ["i"], [], none⟩
        = min (9/10 + 1/10 : ℚ) (99/100) := rfl
    rw [e]; norm_num [min_def]
  · have e : score ⟨"", "", "", "", "", "high", [], ["d"], none⟩
        = min (3/4 + 1/10 : ℚ) (99/100) := rfl
    rw [e]; norm_num [min_def]
  · have e : score ⟨"", "", "", "", "", "low", ["i"], [], none⟩
        = min (3/10 + 1/10 : ℚ) (99/100) := rfl
    rw [e]; norm_num [min_def]

/-- The fingerprint reads only the five key fields, so writing the
confidence leaves it unchanged. -/
theorem fingerprint_withConfidence (f : TriageFinding) :
    fingerprint (withConfidence f) = fingerprint f := rfl

/-- The seen-set fold of `triage_findings` computes the first occurrence
per fingerprint: the carried seen list stays in step with the
fingerprints of the retained findings. -/
theorem triage_fold_eq (fs : List TriageFinding) :
    ∀ (seen : List String) (acc : List TriageFinding),
      (∀ k : String, seen.contains k = acc.any (fun g => fingerprint g == k)) →
      (fs.foldl
        (fun st f =>
          let fp := fingerprint f
          if st.1.contains fp then st
          else (fp :: st.1, st.2 ++ [withConfidence f]))
        (seen, acc.map withConfidence)).2
      = (fs.foldl
          (fun a f =>
            if a.any (fun g => fingerprint g == fingerprint f) then a else a ++ [f])
          acc).map withConfidence := by
  induction fs with
  | nil => intro seen acc hinv; rfl
  | cons f fs ih =>
    intro seen acc hinv
    rw [List.foldl_cons, List.foldl_cons]
    by_cases h : acc.any (fun g => fingerprint g == fingerprint f) = true
    · have hs : seen.contains (fingerprint f) = true := by rw [hinv]; exact h
      simp only [hs, h, if_true]
      exact ih seen acc hinv
    · have hb : acc.any (fun g => fingerprint g == fingerprint f) = false :=
        Bool.eq_false_iff.mpr h
      have hs : seen.contains (fingerprint f) = false := by rw [hinv]; exact hb
      simp only [hs, hb, Bool.false_eq_true, if_false]
      have hmap : (acc.map withConfidence) ++ [withConfidence f]
          = (acc ++ [f]).map withConfidence := by
        rw [List.map_append]; rfl
      rw [hmap]
      apply ih
      intro k
      rw [List.contains_cons, List.any_append, hinv k]
      by_cases hk : k = fingerprint f
      · subst hk
        simp
      · have h1 : (k == fingerprint f) = false := beq_eq_false_iff_ne.mpr hk
        have h2 : (fingerprint f == k) = false :=
          beq_eq_false_iff_ne.mpr (fun e => hk e.symm)
        simp [h1, h2]

/-- C3: triage keeps exactly the first occurrence per fingerprint, in
input order, each retained finding unchanged apart from the written
confidence; a pair with equal fingerprint (in particular with identical
type, url, parameter, payload, issue) collapses to one output finding,
a pair with distinct fingerprints stays two. -/
theorem triage_dedup_first_occurrence :
    (∀ fs : List TriageFinding,
      triage_findings fs = (keepFirstByFingerprint fs).map withConfidence) ∧
    (∀ f1 f2 : TriageFinding,
      (triage_findings [f1, f2]).length
        = if fingerprint f1 = fingerprint f2 then 1 else 2) := by
  have main : ∀ fs, triage_findings fs = (keepFirstByFingerprint fs).map withConfidence := by
    intro fs
    unfold triage_findings keepFirstByFingerprint
    have h := triage_fold_eq fs [] [] (fun k => rfl)
    simpa using h
  refine ⟨main, fun f1 f2 => ?_⟩
  rw [main [f1, f2], List.length_map]
  unfold keepFirstByFingerprint
  by_cases h : fingerprint f1 = fingerprint f2
  · rw [if_pos h]
    simp [h]
  · rw [if_neg h]
    have h1 : (fingerprint f1 == fingerprint f2) = false := beq_eq_false_iff_ne.mpr h
    simp [h1, h]

/-- Whenever the local `finding` variable is assigned, its value is
already in `self.findings`; hence the loop as written computes the same
findings list as the loop with atomic construction and append. -/
theorem ssrf_run_inv (url param : String) (baseline : Option ProbeResult)
    (events : List ProbeEvent) :
    ∀ (fs : List SSRFFinding) (slot : Option SSRFFinding),
      (∀ f, slot = some f → fs.contains f = true) →
      (ssrfRun url param baseline (fs, slot) events).1
        = ssrfCleanRun url param baseline fs events := by
  induction events with
  | nil => intro fs slot hinv; rfl
  | cons ev evs ih =>
    intro fs slot hinv
    rw [ssrfRun, ssrfCleanRun]
    cases ev with
    | ok payload ts r =>
      simp only [ssrfStep, ssrfStepClean]
      by_cases hg : (!(ssrfIndicators r).isEmpty && ssrf_differs baseline r) = true
      · rw [if_pos hg, if_pos hg]
        by_cases hc : fs.contains
            (SSRFFinding.patternHit url param payload (ssrfIndicators r) ts) = true
        · rw [if_pos hc, if_pos hc]
          exact ih fs _ (fun f hf => by injection hf with e; rw [← e]; exact hc)
        · rw [if_neg hc, if_neg hc]
          apply ih
          intro f hf
          injection hf with e
          rw [← e]
          simp
      · rw [if_neg hg, if_neg hg]
        cases slot with
        | none => exact ih fs none (fun f hf => nomatch hf)
        | some f0 =>
          have hc : fs.contains f0 = true := hinv f0 rfl
          dsimp only
          rw [if_pos hc]
          exact ih fs (some f0) hinv
    | timeout payload ts =>
      simp only [ssrfStep, ssrfStepClean]
      by_cases hc : fs.contains (SSRFFinding.timeoutHit url param payload ts) = true
      · rw [if_pos hc, if_pos hc]
        exact ih fs _ (fun f hf => by injection hf with e; rw [← e]; exact hc)
      · rw [if_neg hc, if_neg hc]
        apply ih
        intro f hf
        injection hf with e
        rw [← e]
        simp
    | otherError => exact ih fs slot hinv

/-- Every finding the atomic loop ends with was already present or is
emitted by one of its iteration outcomes under the guard. -/
theorem ssrf_clean_mem (url param : String) (baseline : Option ProbeResult)
    (events : List ProbeEvent) :
    ∀ (fs : List SSRFFinding) (f : SSRFFinding),
      f ∈ ssrfCleanRun url param baseline fs events →
      f ∈ fs ∨ ∃ ev ∈ events, ssrfEmits url param baseline ev f := by
  induction events with
  | nil => intro fs f hf; exact Or.inl hf
  | cons ev evs ih =>
    intro fs f hf
    rw [ssrfCleanRun] at hf
    rcases ih _ f hf with hmem | ⟨ev2, hev2, hem⟩
    · cases ev with
      | ok payload ts r =>
        simp only [ssrfStepClean] at hmem
        by_cases hg : (!(ssrfIndicators r).isEmpty && ssrf_differs baseline r) = true
        · rw [if_pos hg] at hmem
          have hg2 := hg
          rw [Bool.and_eq_true] at hg2
          obtain ⟨hne, hdf⟩ := hg2
          have hne2 : ssrfIndicators r ≠ [] := by
            intro e
            rw [e] at hne
            simp at hne
          by_cases hc : fs.contains
              (SSRFFinding.patternHit url param payload (ssrfIndicators r) ts) = true
          · rw [if_pos hc] at hmem
            exact Or.inl hmem
          · rw [if_neg hc] at hmem
            rcases List.mem_append.mp hmem with hl | hr
            · exact Or.inl hl
            · rw [List.mem_singleton] at hr
              exact Or.inr ⟨ProbeEvent.ok payload ts r, List.mem_cons_self _ _,
                hr, hne2, hdf⟩
        · rw [if_neg hg] at hmem
          exact Or.inl hmem
      | timeout payload ts =>
        simp only [ssrfStepClean] at hmem
        by_cases hc : fs.contains (SSRFFinding.timeoutHit url param payload ts) = true
        · rw [if_pos hc] at hmem
          exact Or.inl hmem
        · rw [if_neg hc] at hmem
          rcases List.mem_append.mp hmem with hl | hr
          · exact Or.inl hl
          · rw [List.mem_singleton] at hr
            exact Or.inr ⟨ProbeEvent.timeout payload ts, List.mem_cons_self _ _, hr⟩
      | otherError => exact Or.inl hmem
    · exact Or.inr ⟨ev2, List.mem_cons_of_mem ev hev2, hem⟩

/-- C6: the SSRF pattern-match branch appends a Finding only when the
response is significant relative to baseline AND an SSRF evidence
indicator matched: the findings produced by the loop as written equal
those of the atomic loop, so the unconditional append line never emits a
stale or undefined Finding, and every emitted finding traces to an
iteration outcome that satisfies the guard (or to a timeout). -/
theorem ssrf_append_guarded :
    ∀ (url param : String) (baseline : Option ProbeResult)
      (fs0 : List SSRFFinding) (events : List ProbeEvent),
      (ssrfRun url param baseline (fs0, none) events).1
        = ssrfCleanRun url param baseline fs0 events ∧
      (∀ f, f ∈ (ssrfRun url param baseline (fs0, none) events).1 →
        f ∈ fs0 ∨ ∃ ev ∈ events, ssrfEmits url param baseline ev f) := by
  intro url param baseline fs0 events
  have heq := ssrf_run_inv url param baseline events fs0 none (fun f hf => nomatch hf)
  refine ⟨heq, fun f hf => ?_⟩
  rw [heq] at hf
  exact ssrf_clean_mem url param baseline events fs0 f hf

/-- C2: the budget is a fixed-window counter. A call at `now` resets the
counter and restarts the window exactly when at least `window_seconds`
elapsed since `window_start`; it grants (adding n to the counter and
returning true) exactly when the (post-reset) count plus n stays within
`max_requests`, and otherwise changes nothing. With max_requests = 3 and
window_seconds = 60, three one-unit calls inside a window succeed, the
fourth fails and keeps failing at every poll inside the window, and
succeeds at any time at least 60 seconds past the window start. -/
theorem budget_fixed_window :
    (∀ (b : RequestBudget) (s : BudgetState) (now : ℚ) (n : ℤ),
      ((b.allow s now n).1 = true ↔
        (if b.window_seconds ≤ now - s.window_start then 0 else s.count) + n
          ≤ b.max_requests) ∧
      (b.window_seconds ≤ now - s.window_start →
        (b.allow s now n).2.window_start = now) ∧
      (¬ b.window_seconds ≤ now - s.window_start →
        (b.allow s now n).2.window_start = s.window_start) ∧
      ((b.allow s now n).1 = true →
        (b.allow s now n).2.count
          = (if b.window_seconds ≤ now - s.window_start then 0 else s.count) + n) ∧
      ((b.allow s now n).1 = false →
        (b.allow s now n).2.count
          = (if b.window_seconds ≤ now - s.window_start then 0 else s.count))) ∧
    (∀ t0 t1 t2 t3 t4 : ℚ,
      t1 - t0 < 60 → t2 - t0 < 60 → t3 - t0 < 60 → t4 - t0 < 60 →
      (allowSeq ⟨3, 60⟩ ⟨t0, 0⟩ [(t1, 1), (t2, 1), (t3, 1), (t4, 1)]).1
          = [true, true, true, false] ∧
      (allowSeq ⟨3, 60⟩ ⟨t0, 0⟩ [(t1, 1), (t2, 1), (t3, 1), (t4, 1)]).2
          = ⟨t0, 3⟩ ∧
      (∀ t5 : ℚ, t5 - t0 < 60 →
        ((⟨3, 60⟩ : RequestBudget).allow ⟨t0, 3⟩ t5 1).1 = false) ∧
      (∀ t5 : ℚ, 60 ≤ t5 - t0 →
        ((⟨3, 60⟩ : RequestBudget).allow ⟨t0, 3⟩ t5 1).1 = true)) := by
  constructor
  · intro b s now n
    by_cases hw : b.window_seconds ≤ now - s.window_start
    · by_cases hm : b.max_requests < n
      · simp [RequestBudget.allow, hw, hm]
      · simp [RequestBudget.allow, hw, hm]
        omega
    · by_cases hm : b.max_requests < s.count + n
      · simp [RequestBudget.allow, hw, hm]
      · simp [RequestBudget.allow, hw, hm]
        omega
  · intro t0 t1 t2 t3 t4 h1 h2 h3 h4
    have hw1 : ¬ (60 : ℚ) ≤ t1 - t0 := not_le.mpr h1
    have hw2 : ¬ (60 : ℚ) ≤ t2 - t0 := not_le.mpr h2
    have hw3 : ¬ (60 : ℚ) ≤ t3 - t0 := not_le.mpr h3
    have hw4 : ¬ (60 : ℚ) ≤ t4 - t0 := not_le.mpr h4
    refine ⟨?_, ?_, fun t5 h5 => ?_, fun t5 h5 => ?_⟩
    · norm_num [allowSeq, RequestBudget.allow, hw1, hw2, hw3, hw4]
    · norm_num [allowSeq, RequestBudget.allow, hw1, hw2, hw3, hw4]
    · norm_num [RequestBudget.allow, not_le.mpr h5]
    · norm_num [RequestBudget.allow, h5]

/-- C2 witness: the window scenario at concrete clock readings. -/
theorem budget_fixed_window_witness :
    (allowSeq ⟨3, 60⟩ ⟨0, 0⟩ [(1, 1), (2, 1), (3, 1), (4, 1)]).1
        = [true, true, true, false] ∧
    ((⟨3, 60⟩ : RequestBudget).allow ⟨0, 3⟩ 30 1).1 = false ∧
    ((⟨3, 60⟩ : RequestBudget).allow ⟨0, 3⟩ 60 1).1 = true := by
  have h := budget_fixed_window.2 0 1 2 3 4
    (by norm_num) (by norm_num) (by norm_num) (by norm_num)
  exact ⟨h.1, h.2.2.1 30 (by norm_num), h.2.2.2 60 (by norm_num)⟩

/-- C9 (amended): from any state with a nonnegative counter, a request of
n > max_requests units is denied at every poll — `wait_for_budget(n)`
spins forever — while for 1 <= n <= max_requests the wait returns as soon
as some poll falls at or past the end of the current window. -/
theorem budget_wait_termination :
    ∀ (b : RequestBudget) (s : BudgetState) (n : ℤ) (ts : List ℚ),
      (0 ≤ s.count → b.max_requests < n → (pollRun b n s ts).1 = false) ∧
      (1 ≤ n → n ≤ b.max_requests →
        (∃ t ∈ ts, b.window_seconds ≤ t - s.window_start) →
        (pollRun b n s ts).1 = true) := by
  intro b s n ts
  constructor
  · induction ts generalizing s with
    | nil => intro _ _; rfl
    | cons t ts ih =>
      intro hc hn
      rw [pollRun]
      by_cases hw : b.window_seconds ≤ t - s.window_start
      · have ha : b.allow s t n = (false, ⟨t, 0⟩) := by
          simp only [RequestBudget.allow, if_pos hw]
          rw [if_pos (by omega : b.max_requests < (0 : ℤ) + n)]
        rw [ha]
        exact ih ⟨t, 0⟩ le_rfl hn
      · have ha : b.allow s t n = (false, s) := by
          simp only [RequestBudget.allow, if_neg hw]
          rw [if_pos (by omega : b.max_requests < s.count + n)]
        rw [ha]
        exact ih s hc hn
  · induction ts generalizing s with
    | nil =>
      intro _ _ hex
      rcases hex with ⟨t, ht, _⟩
      exact absurd ht (List.not_mem_nil t)
    | cons t ts ih =>
      intro h1 hmax hex
      rw [pollRun]
      by_cases hw : b.window_seconds ≤ t - s.window_start
      · have ha : b.allow s t n = (true, ⟨t, 0 + n⟩) := by
          simp only [RequestBudget.allow, if_pos hw]
          rw [if_neg (by omega : ¬ b.max_requests < (0 : ℤ) + n)]
        rw [ha]
      · rcases hg : b.allow s t n with ⟨g, s2⟩
        cases g
        · have hs2 : s2 = s := by
            have h2 := hg
            simp only [RequestBudget.allow, if_neg hw] at h2
            by_cases hm : b.max_requests < s.count + n
            · rw [if_pos hm] at h2
              injection h2 with e1 e2
              exact e2.symm
            · rw [if_neg hm] at h2
              injection h2 with e1 e2
              exact absurd e1 (by simp)
          dsimp only
          rw [hs2]
          apply ih s h1 hmax
          rcases hex with ⟨t2, ht2, hge⟩
          rcases List.mem_cons.mp ht2 with he | hmem
          · rw [he] at hge
            exact absurd hge hw
          · exact ⟨t2, hmem, hge⟩
        · rfl

/-- C9 counterexample: with max_requests = 3, a 4-unit acquire is denied
at polls spread over four successive windows — resetting the window never
frees enough budget, so the blocking acquire is a permanent failure. -/
theorem budget_wait_overbudget_cex :
    (pollRun ⟨3, 60⟩ 4 ⟨0, 0⟩ [0, 61, 122, 1000]).1 = false := by
  norm_num [pollRun, RequestBudget.allow]

/-- C9 witness: both halves at concrete inputs. -/
theorem budget_wait_termination_witness :
    (pollRun ⟨3, 60⟩ 4 ⟨0, 0⟩ [0, 61]).1 = false ∧
    (pollRun ⟨3, 60⟩ 1 ⟨0, 3⟩ [10, 61]).1 = true := by
  constructor
  · exact (budget_wait_termination ⟨3, 60⟩ ⟨0, 0⟩ 4 [0, 61]).1 (by norm_num) (by norm_num)
  · exact (budget_wait_termination ⟨3, 60⟩ ⟨0, 3⟩ 1 [10, 61]).2 (by norm_num) (by norm_num)
      ⟨61, List.mem_cons_of_mem 10 (List.mem_singleton_self 61), by norm_num⟩

/-- In rotate mode with a non-empty normalized target list and a parsed
start timestamp, the resolved target is the entry at index
`days_elapsed.toNat / max(days, 1).toNat % len` — the source computation,
with every operand nonnegative. -/
theorem resolve_rotate_eq (f : FocusConfig) (now s : ℚ)
    (hen : f.enabled = true)
    (hmode : strLower (strTrim (if f.mode == "" then "single" else f.mode)) = "rotate")
    (hne : normalizedRotateTargets f ≠ [])
    (hs : f.rotate_start = some s) :
    resolve_focus_target f now
      = (normalizedRotateTargets f).getD
          ((max 0 ⌊(now - s) / 86400⌋).toNat / (max (effectiveDays f) 1).toNat
            % (normalizedRotateTargets f).length) "" := by
  unfold resolve_focus_target
  rw [hen, hs, hmode]
  simp [hne]

/-- The Nat division and remainder the source effectively performs equal
Python floor division and modulo for a nonnegative dividend and a
positive period. -/
theorem natIdx_eq_fdiv (delta period : ℤ) (len : ℕ)
    (hdelta : 0 ≤ delta) (hperiod : 1 ≤ period) :
    delta.toNat / period.toNat % len
      = Int.toNat (delta.fdiv period % (len : ℤ)) := by
  lift delta to ℕ using hdelta
  lift period to ℕ using (by omega : (0 : ℤ) ≤ period)
  simp only [Int.toNat_natCast]
  rw [Int.fdiv_eq_ediv _ (by positivity)]
  norm_cast

/-- C7 (amended): in rotate mode with a non-empty target list and a
parseable rotate_start, the resolved focus target is
`targets[floor(days_elapsed / period) mod len(targets)]` where the period
is `max(days, 1)` (a zero/absent days value is read as 56 before the
clamp) rather than the raw configured days value, and any target whose
normalization differs from the resolved one is rejected by
`require_focus_target`. -/
theorem focus_rotate_resolution (f : FocusConfig) (now s : ℚ)
    (hen : f.enabled = true)
    (hmode : strLower (strTrim (if f.mode == "" then "single" else f.mode)) = "rotate")
    (hne : normalizedRotateTargets f ≠ [])
    (hs : f.rotate_start = some s) :
    resolve_focus_target f now
      = (normalizedRotateTargets f).getD
          (Int.toNat ((max 0 ⌊(now - s) / 86400⌋).fdiv (max (effectiveDays f) 1)
            % ((normalizedRotateTargets f).length : ℤ))) "" ∧
    (∀ target : String, strLower (strTrim target) ≠ resolve_focus_target f now →
      ∃ e, require_focus_target f now target = Except.error e) := by
  constructor
  · rw [resolve_rotate_eq f now s hen hmode hne hs]
    congr 1
    exact natIdx_eq_fdiv _ _ _ (le_max_left 0 _) (le_max_right _ 1)
  · intro target ht
    unfold require_focus_target
    rw [hen]
    rw [if_neg (by simp : ¬ (true = false))]
    dsimp only
    split_ifs with h1
    · exact ⟨_, rfl⟩
    · exact ⟨_, rfl⟩

/-- C7 counterexample: with rotate_targets = [a.com, b.com], days = -2
and 3 whole days elapsed since rotate_start, the code resolves b.com
(period clamped to max(-2, 1) = 1, index 3 mod 2 = 1) while the claim's
formula floor(3 / -2) mod 2 = 0 picks a.com. -/
theorem focus_rotate_period_cex :
    resolve_focus_target ⟨true, "", -2, "rotate", ["a.com", "b.com"], some 0⟩ 259200
      = "b.com" ∧
    claimFocusTarget ⟨true, "", -2, "rotate", ["a.com", "b.com"], some 0⟩ 259200
      = "a.com" := by
  have hfl : (⌊(((259200 : ℚ)) - 0) / 86400⌋ : ℤ) = 3 := by norm_num
  constructor
  · rw [resolve_rotate_eq ⟨true, "", -2, "rotate", ["a.com", "b.com"], some 0⟩
      259200 0 rfl (by decide) (by decide) rfl]
    rw [hfl]
    decide
  · unfold claimFocusTarget
    dsimp only
    rw [hfl]
    decide

/-- C7 witness: with days = 7 the resolved target advances to b.com
exactly 7 days after rotate_start, wraps back to a.com after 14 days, and
a non-focused target is rejected. -/
theorem focus_rotate_resolution_witness :
    resolve_focus_target ⟨true, "", 7, "rotate", ["a.com", "b.com"], some 0⟩ 604800
      = "b.com" ∧
    resolve_focus_target ⟨true, "", 7, "rotate", ["a.com", "b.com"], some 0⟩ 1209600
      = "a.com" ∧
    (∃ e, require_focus_target ⟨true, "", 7, "rotate", ["a.com", "b.com"], some 0⟩
      604800 "evil.com" = Except.error e) := by
  have h1 := focus_rotate_resolution ⟨true, "", 7, "rotate", ["a.com", "b.com"], some 0⟩
    604800 0 rfl (by decide) (by decide) rfl
  have h2 := focus_rotate_resolution ⟨true, "", 7, "rotate", ["a.com", "b.com"], some 0⟩
    1209600 0 rfl (by decide) (by decide) rfl
  have e1 : resolve_focus_target ⟨true, "", 7, "rotate", ["a.com", "b.com"], some 0⟩ 604800
      = "b.com" := by
    rw [h1.1, show (⌊(((604800 : ℚ)) - 0) / 86400⌋ : ℤ) = 7 from by norm_num]
    decide
  have e2 : resolve_focus_target ⟨true, "", 7, "rotate", ["a.com", "b.com"], some 0⟩ 1209600
      = "a.com" := by
    rw [h2.1, show (⌊(((1209600 : ℚ)) - 0) / 86400⌋ : ℤ) = 14 from by norm_num]
    decide
  refine ⟨e1, e2, h1.2 "evil.com" ?_⟩
  rw [e1]
  decide
